import Mathlib

/-!
Shallow embedding of `schema.go` (package huma): the `GenerateSchema`
function that converts a Go `reflect.Type` into a JSON-Schema-like
`Schema` value, together with the struct-tag processing it performs.

Modelling conventions:
* `reflect.Type` becomes the inductive `Typ`; struct fields (name, parsed
  struct tag, field type) become the mutually inductive `Fields` list.
* Go struct tags are modelled as already-parsed key/value lists; `Tag.Get`
  and `Tag.Lookup` keep their first-match semantics.
* The Go `Schema` struct (with pointer fields for optional values) becomes
  the inductive `Schema`; `nil` slices/maps/pointers become `[]` / `none`.
* `properties` is a Go map; it is modelled as an association list with
  overwrite-on-insert semantics (`mapSet`), which preserves lookup
  behaviour and key cardinality.
* In the Go code the child schema pointer is inserted into `properties`
  before the tag annotations mutate the pointed-to value; since the map
  holds the pointer, the observable result equals annotating first and
  inserting the finished value, which is how `genFields` is written.
* `strconv.Atoi` is modelled by `atoi` (optional sign, decimal digits,
  64-bit range check); its error value is a function of the input text
  only, so the model error `GenError.atoiErr` carries just that text.
* `encoding/json.Unmarshal` into `interface{}` is modelled by
  `jsonUnmarshal`, a fuel-based JSON parser producing `Jsonv`. JSON
  numbers are kept as their literal token (instead of float64) — no
  theorem below compares two distinct spellings of a number — but the
  decoder's `strconv.ParseFloat` overflow error is modelled exactly
  (`floatOverflow`): a literal whose value rounds to ±Inf is rejected as
  in Go, while an underflowing literal parses in Go without error and
  stays accepted. Escaped `\u` surrogates follow Go's unquoting: a valid
  pair combines, an unpaired surrogate becomes U+FFFD. The parser's error
  is a function of the input bytes only (`GenError.jsonErr`).
-/

namespace Huma

/-- Parsed struct-tag: ordered key/value pairs. -/
abbrev Tags := List (String × String)

/-- `reflect.StructTag.Lookup`: first binding for the key, if any. -/
def tagLookup (tags : Tags) (key : String) : Option String :=
  match tags with
  | [] => none
  | (k, v) :: rest => if k = key then some v else tagLookup rest key

/-- `reflect.StructTag.Get`: like `tagLookup` but returns "" when absent. -/
def tagGet (tags : Tags) (key : String) : String :=
  (tagLookup tags key).getD ""

/-- `strconv.Atoi`: optional sign, one or more ASCII digits, value within
the 64-bit int range; `none` models a non-nil error (syntax or range). -/
def atoi (s : String) : Option Int :=
  let cs := s.toList
  let signAndDigits : Int × List Char :=
    match cs with
    | '+' :: rest => (1, rest)
    | '-' :: rest => (-1, rest)
    | _ => (1, cs)
  let sign := signAndDigits.1
  let ds := signAndDigits.2
  if ds.isEmpty then none
  else if ds.all (fun c => c.isDigit) then
    let n : Nat := ds.foldl (fun acc c => acc * 10 + (c.toNat - 48)) 0
    let v : Int := sign * (n : Int)
    if -(2 ^ 63) ≤ v ∧ v ≤ 2 ^ 63 - 1 then some v else none
  else none

/-- Values of Go type `interface\x7b\x7d` as produced by the code: either a
raw Go string (stored verbatim) or a value decoded from JSON. A decoded
JSON string is a Go string too, so both collapse to `.str`. -/
inductive Jsonv : Type where
  | null : Jsonv
  | boolv (b : Bool) : Jsonv
  | num (lit : String) : Jsonv
  | str (s : String) : Jsonv
  | arr (elems : List Jsonv) : Jsonv
  | obj (members : List (String × Jsonv)) : Jsonv

/-- The `Schema` struct of schema.go: Type, Description, Items, Properties,
Required, Format, Enum, Default, Example, Minimum, Maximum (in order). -/
inductive Schema : Type where
  | mk
    (type : String)
    (description : String)
    (items : Option Schema)
    (properties : List (String × Schema))
    (required : List String)
    (format : String)
    (enum : Option (List Jsonv))
    (defaultVal : Option Jsonv)
    (exampleVal : Option Jsonv)
    (minimum : Option Int)
    (maximum : Option Int) : Schema

def Schema.type : Schema → String
  | .mk t _ _ _ _ _ _ _ _ _ _ => t

def Schema.description : Schema → String
  | .mk _ d _ _ _ _ _ _ _ _ _ => d

def Schema.items : Schema → Option Schema
  | .mk _ _ it _ _ _ _ _ _ _ _ => it

def Schema.properties : Schema → List (String × Schema)
  | .mk _ _ _ ps _ _ _ _ _ _ _ => ps

def Schema.required : Schema → List String
  | .mk _ _ _ _ rq _ _ _ _ _ _ => rq

def Schema.format : Schema → String
  | .mk _ _ _ _ _ fm _ _ _ _ _ => fm

def Schema.enum : Schema → Option (List Jsonv)
  | .mk _ _ _ _ _ _ en _ _ _ _ => en

def Schema.defaultVal : Schema → Option Jsonv
  | .mk _ _ _ _ _ _ _ df _ _ _ => df

def Schema.exampleVal : Schema → Option Jsonv
  | .mk _ _ _ _ _ _ _ _ ex _ _ => ex

def Schema.minimum : Schema → Option Int
  | .mk _ _ _ _ _ _ _ _ _ mn _ => mn

def Schema.maximum : Schema → Option Int
  | .mk _ _ _ _ _ _ _ _ _ _ mx => mx

def Schema.setDescription : Schema → String → Schema
  | .mk t _ it ps rq fm en df ex mn mx, d => .mk t d it ps rq fm en df ex mn mx

def Schema.setEnum : Schema → List Jsonv → Schema
  | .mk t d it ps rq fm _ df ex mn mx, en => .mk t d it ps rq fm (some en) df ex mn mx

def Schema.setMinimum : Schema → Int → Schema
  | .mk t d it ps rq fm en df ex _ mx, mn => .mk t d it ps rq fm en df ex (some mn) mx

def Schema.setMaximum : Schema → Int → Schema
  | .mk t d it ps rq fm en df ex mn _, mx => .mk t d it ps rq fm en df ex mn (some mx)

def Schema.setExampleVal : Schema → Jsonv → Schema
  | .mk t d it ps rq fm en df _ mn mx, ex => .mk t d it ps rq fm en df (some ex) mn mx

/-- The zero value `Schema\x7b\x7d` (every field at its Go zero value). -/
def emptySchema : Schema :=
  .mk "" "" none [] [] "" none none none none none

/-- A leaf node carrying only a type, e.g. `Schema\x7bType: "string"\x7d`. -/
def leaf (t : String) : Schema :=
  .mk t "" none [] [] "" none none none none none

/-- The node built for unsigned-integer kinds: integer with minimum 0. -/
def uintLeaf : Schema :=
  .mk "integer" "" none [] [] "" none none none (some 0) none

/-- Go map insertion `m[k] = v`: overwrite the binding if the key exists,
otherwise append it. Keeps one entry per key. -/
def mapSet (m : List (String × Schema)) (k : String) (v : Schema) :
    List (String × Schema) :=
  match m with
  | [] => [(k, v)]
  | (k', v') :: rest =>
    if k' = k then (k, v) :: rest else (k', v') :: mapSet rest k v

/-- Go map lookup. -/
def lookupProp (m : List (String × Schema)) (k : String) : Option Schema :=
  match m with
  | [] => none
  | (k', v) :: rest => if k' = k then some v else lookupProp rest k

/-- Errors returned by the generator. `atoiErr` / `jsonErr` stand for the
errors of `strconv.Atoi` / `json.Unmarshal`, which are functions of the
offending text alone (they carry no field name); `unsupported` is the
`fmt.Errorf("unsupported type %s from %s", t.Kind(), t)` value. -/
inductive GenError : Type where
  | atoiErr (num : String) : GenError
  | jsonErr (input : String) : GenError
  | unsupported (kind : String) (typeName : String) : GenError
deriving DecidableEq

mutual

/-- `reflect.Type`, restricted to the kinds `GenerateSchema` dispatches on.
The kinds with no mapping rule (the `default` case of the switch) are
represented by `funcT` / `chanT` / `interfaceT`, each carrying the string
`reflect.Type.String()` would print for it. -/
inductive Typ : Type where
  | structT (fields : Fields) : Typ
  | mapT (key elem : Typ) : Typ
  | sliceT (elem : Typ) : Typ
  | arrayT (length : Nat) (elem : Typ) : Typ
  | intT : Typ
  | int8T : Typ
  | int16T : Typ
  | int32T : Typ
  | int64T : Typ
  | uintT : Typ
  | uint8T : Typ
  | uint16T : Typ
  | uint32T : Typ
  | uint64T : Typ
  | float32T : Typ
  | float64T : Typ
  | boolT : Typ
  | stringT : Typ
  | ptrT (elem : Typ) : Typ
  | funcT (typeName : String) : Typ
  | chanT (typeName : String) : Typ
  | interfaceT (typeName : String) : Typ

/-- The ordered field list of a struct type: declared identifier, parsed
struct tag, field type. -/
inductive Fields : Type where
  | nil : Fields
  | cons (name : String) (tags : Tags) (ty : Typ) (rest : Fields) : Fields

end

/-- Helper for `strings.Split(s, ",")` on the character list: Go returns
the (always nonempty) list of comma-separated segments; splitting the
empty string yields `[""]`. -/
def splitCommaChars : List Char → List (List Char)
  | [] => [[]]
  | c :: cs =>
    let r := splitCommaChars cs
    if c = ',' then [] :: r
    else
      match r with
      | [] => [[c]]
      | seg :: rest => (c :: seg) :: rest

/-- `strings.Split(s, ",")`. -/
def splitComma (s : String) : List String :=
  (splitCommaChars s.toList).map String.mk

/-- Lines 42-47: `jsonTags := strings.Split(f.Tag.Get("json"), ",")`,
`name := f.Name`, `if len(jsonTags) > 0 \x7b name = jsonTags[0] \x7d`.
`strings.Split` never returns an empty slice, so the `f.Name` branch is
dead code, kept here verbatim. -/
def fieldName (fname : String) (tags : Tags) : String :=
  match splitComma (tagGet tags "json") with
  | [] => fname
  | t :: _ => t

/-- Lines 95-100: `optional` is true iff some entry of `jsonTags[1:]`
equals "omitempty". -/
def fieldOptional (tags : Tags) : Bool :=
  ((splitComma (tagGet tags "json")).drop 1).contains "omitempty"

/-- JSON whitespace test, as in encoding/json. -/
def isWs (c : Char) : Bool :=
  c = ' ' || c = '\t' || c = '\n' || c = '\r'

/-- Drop leading JSON whitespace. -/
def skipWs : List Char → List Char
  | [] => []
  | c :: cs => if isWs c then skipWs cs else c :: cs

/-- Take a maximal run of ASCII digits. -/
def takeDigits : List Char → List Char × List Char
  | [] => ([], [])
  | c :: cs =>
    if c.isDigit then
      let p := takeDigits cs
      (c :: p.1, p.2)
    else ([], c :: cs)

/-- Parse a JSON number token, returning its literal text and the rest. -/
def parseNumberTok (cs : List Char) : Option (List Char × List Char) :=
  let signed : List Char × List Char :=
    match cs with
    | '-' :: rest => (['-'], rest)
    | _ => ([], cs)
  match signed.2 with
  | [] => none
  | c :: rest =>
    if c = '0' then
      some (signed.1 ++ ['0'], rest)
    else if c.isDigit then
      let p := takeDigits rest
      some (signed.1 ++ (c :: p.1), p.2)
    else none

/-- Parse the optional fraction part of a JSON number. -/
def parseFrac (cs : List Char) : Option (List Char × List Char) :=
  match cs with
  | '.' :: rest =>
    match takeDigits rest with
    | ([], _) => none
    | (ds, rest2) => some ('.' :: ds, rest2)
  | _ => some ([], cs)

/-- Parse the optional exponent part of a JSON number. -/
def parseExp (cs : List Char) : Option (List Char × List Char) :=
  match cs with
  | c :: rest =>
    if c = 'e' || c = 'E' then
      let signed : List Char × List Char :=
        match rest with
        | s :: rest2 => if s = '+' || s = '-' then ([s], rest2) else ([], rest)
        | [] => ([], rest)
      match takeDigits signed.2 with
      | ([], _) => none
      | (ds, rest2) => some ((c :: signed.1) ++ ds, rest2)
    else some ([], c :: rest)
  | [] => some ([], [])

/-- Parse a full JSON number (int, frac?, exp?); keeps the literal text. -/
def parseNumber (cs : List Char) : Option (String × List Char) := do
  let (intPart, r1) ← parseNumberTok cs
  let (fracPart, r2) ← parseFrac r1
  let (expPart, r3) ← parseExp r2
  pure (String.mk (intPart ++ fracPart ++ expPart), r3)

/-- The natural number denoted by a run of ASCII digits. -/
def digitsToNat (ds : List Char) : Nat :=
  ds.foldl (fun a c => a * 10 + (c.toNat - 48)) 0

/-- Decompose a syntactically valid JSON number literal into mantissa and
decimal exponent: the literal denotes (±) mantissa * 10 ^ exponent. The
sign is dropped — the float64 range check below is symmetric. -/
def numLitParts (lit : String) : Nat × Int :=
  let cs :=
    match lit.toList with
    | '-' :: rest => rest
    | l => l
  let ip := takeDigits cs
  let fp :=
    match ip.2 with
    | '.' :: rest => takeDigits rest
    | _ => ([], ip.2)
  let expv : Int :=
    match fp.2 with
    | c :: rest =>
      if c = 'e' ∨ c = 'E' then
        match rest with
        | '+' :: rest2 => (digitsToNat (takeDigits rest2).1 : Int)
        | '-' :: rest2 => -(digitsToNat (takeDigits rest2).1 : Int)
        | _ => (digitsToNat (takeDigits rest).1 : Int)
      else 0
    | [] => 0
  (digitsToNat (ip.1 ++ fp.1), expv - (fp.1.length : Int))

/-- The error condition of `strconv.ParseFloat(lit, 64)`, which the json
decoder calls for every number: the decoded value is correctly rounded,
and the only error is overflow — the value rounds to ±Inf, i.e.
|value| ≥ 2^1024 - 2^970 (the midpoint above the largest finite float64,
which round-to-nearest-even sends to Inf). A literal that underflows to
zero parses in Go without error, so it is not an error here either. -/
def floatOverflow (lit : String) : Bool :=
  let p := numLitParts lit
  if p.1 = 0 then false
  else if 0 ≤ p.2 then
    decide (2 ^ 1024 - 2 ^ 970 ≤ p.1 * 10 ^ p.2.toNat)
  else
    decide ((2 ^ 1024 - 2 ^ 970) * 10 ^ (-p.2).toNat ≤ p.1)

/-- Hex digit value, if any. -/
def hexVal (c : Char) : Option Nat :=
  if '0' ≤ c ∧ c ≤ '9' then some (c.toNat - 48)
  else if 'a' ≤ c ∧ c ≤ 'f' then some (c.toNat - 87)
  else if 'A' ≤ c ∧ c ≤ 'F' then some (c.toNat - 55)
  else none

/-- Parse the body of a JSON string after the opening quote, handling the
standard escapes (fuel-based; fuel bounds the number of consumed chars). -/
def parseStringBody : Nat → List Char → Option (List Char × List Char)
  | 0, _ => none
  | _ + 1, [] => none
  | fuel + 1, c :: cs =>
    if c = '"' then some ([], cs)
    else if c = '\\' then
      match cs with
      | [] => none
      | e :: cs2 =>
        if e = '"' ∨ e = '\\' ∨ e = '/' then do
          let (s, r) ← parseStringBody fuel cs2
          pure (e :: s, r)
        else if e = 'b' then do
          let (s, r) ← parseStringBody fuel cs2
          pure (Char.ofNat 8 :: s, r)
        else if e = 'f' then do
          let (s, r) ← parseStringBody fuel cs2
          pure (Char.ofNat 12 :: s, r)
        else if e = 'n' then do
          let (s, r) ← parseStringBody fuel cs2
          pure ('\n' :: s, r)
        else if e = 'r' then do
          let (s, r) ← parseStringBody fuel cs2
          pure ('\r' :: s, r)
        else if e = 't' then do
          let (s, r) ← parseStringBody fuel cs2
          pure ('\t' :: s, r)
        else if e = 'u' then
          match cs2 with
          | h1 :: h2 :: h3 :: h4 :: cs3 => do
            let v1 ← hexVal h1
            let v2 ← hexVal h2
            let v3 ← hexVal h3
            let v4 ← hexVal h4
            let c1 := ((v1 * 16 + v2) * 16 + v3) * 16 + v4
            -- Go's unquoting: a surrogate combines with a following low
            -- surrogate escape; otherwise it becomes U+FFFD and the
            -- lookahead is not consumed.
            if c1 < 0xD800 ∨ 0xE000 ≤ c1 then do
              let (s, r) ← parseStringBody fuel cs3
              pure (Char.ofNat c1 :: s, r)
            else
              match cs3 with
              | '\\' :: 'u' :: g1 :: g2 :: g3 :: g4 :: cs4 =>
                (match hexVal g1, hexVal g2, hexVal g3, hexVal g4 with
                 | some w1, some w2, some w3, some w4 =>
                   let c2 := ((w1 * 16 + w2) * 16 + w3) * 16 + w4
                   if c1 < 0xDC00 ∧ 0xDC00 ≤ c2 ∧ c2 < 0xE000 then do
                     let (s, r) ← parseStringBody fuel cs4
                     pure (Char.ofNat
                       (0x10000 + (c1 - 0xD800) * 0x400 + (c2 - 0xDC00)) :: s, r)
                   else do
                     let (s, r) ← parseStringBody fuel cs3
                     pure (Char.ofNat 0xFFFD :: s, r)
                 | _, _, _, _ => do
                   let (s, r) ← parseStringBody fuel cs3
                   pure (Char.ofNat 0xFFFD :: s, r))
              | _ => do
                let (s, r) ← parseStringBody fuel cs3
                pure (Char.ofNat 0xFFFD :: s, r)
          | _ => none
        else none
    else if c.toNat < 32 then none
    else do
      let (s, r) ← parseStringBody fuel cs
      pure (c :: s, r)

mutual

/-- Parse one JSON value (fuel-based recursive descent). -/
def parseJv : Nat → List Char → Option (Jsonv × List Char)
  | 0, _ => none
  | fuel + 1, cs =>
    match skipWs cs with
    | [] => none
    | 'n' :: 'u' :: 'l' :: 'l' :: rest => some (.null, rest)
    | 't' :: 'r' :: 'u' :: 'e' :: rest => some (.boolv true, rest)
    | 'f' :: 'a' :: 'l' :: 's' :: 'e' :: rest => some (.boolv false, rest)
    | '"' :: rest => do
      let (s, r) ← parseStringBody (rest.length + 1) rest
      pure (.str (String.mk s), r)
    | '[' :: rest =>
      (match skipWs rest with
       | ']' :: r2 => some (.arr [], r2)
       | other => do
         let (xs, r2) ← parseArrItems fuel other
         pure (.arr xs, r2))
    | '{' :: rest =>
      (match skipWs rest with
       | '}' :: r2 => some (.obj [], r2)
       | other => do
         let (ms, r2) ← parseObjItems fuel other
         pure (.obj ms, r2))
    | c :: rest =>
      if c = '-' ∨ c.isDigit then do
        let (lit, r) ← parseNumber (c :: rest)
        -- json.Unmarshal converts every number with strconv.ParseFloat
        -- and fails on its overflow error.
        if floatOverflow lit then none
        else pure (.num lit, r)
      else none

/-- Parse a nonempty comma-separated list of values up to `]`. -/
def parseArrItems : Nat → List Char → Option (List Jsonv × List Char)
  | 0, _ => none
  | fuel + 1, cs => do
    let (v, r) ← parseJv fuel cs
    match skipWs r with
    | ',' :: r2 => do
      let (xs, r3) ← parseArrItems fuel r2
      pure (v :: xs, r3)
    | ']' :: r2 => pure ([v], r2)
    | _ => none

/-- Parse a nonempty comma-separated list of members up to the closing
brace. -/
def parseObjItems : Nat → List Char → Option (List (String × Jsonv) × List Char)
  | 0, _ => none
  | fuel + 1, cs =>
    match skipWs cs with
    | '"' :: rest => do
      let (k, r) ← parseStringBody (rest.length + 1) rest
      match skipWs r with
      | ':' :: r2 => do
        let (v, r3) ← parseJv fuel r2
        match skipWs r3 with
        | ',' :: r4 => do
          let (ms, r5) ← parseObjItems fuel r4
          pure ((String.mk k, v) :: ms, r5)
        | '}' :: r4 => pure ([(String.mk k, v)], r4)
        | _ => none
      | _ => none
    | _ => none

end

/-- `json.Unmarshal(data, &v)` for `v interface\x7b\x7d`: one JSON value,
optionally surrounded by whitespace, nothing else. `none` models a non-nil
error; the error value depends only on the input bytes. -/
def jsonUnmarshal (s : String) : Option Jsonv :=
  match parseJv (s.length * 4 + 16) s.toList with
  | some (v, rest) => if skipWs rest = [] then some v else none
  | none => none

/-- Lines 55-57: the description tag, stored verbatim. -/
def applyDesc (tags : Tags) (s : Schema) : Schema :=
  match tagLookup tags "description" with
  | some d => s.setDescription d
  | none => s

/-- Lines 59-65: the enum tag, split on commas; each token is stored as a
Go string value (no coercion to the field type). -/
def applyEnum (tags : Tags) (s : Schema) : Schema :=
  match tagLookup tags "enum" with
  | some e => s.setEnum ((splitComma e).map Jsonv.str)
  | none => s

/-- Lines 67-73: the minimum tag; `strconv.Atoi` failure aborts the build. -/
def applyMin (tags : Tags) (s : Schema) : Except GenError Schema :=
  match tagLookup tags "minimum" with
  | some d =>
    match atoi d with
    | some n => .ok (s.setMinimum n)
    | none => .error (.atoiErr d)
  | none => .ok s

/-- Lines 75-81: the maximum tag; `strconv.Atoi` failure aborts the build. -/
def applyMax (tags : Tags) (s : Schema) : Except GenError Schema :=
  match tagLookup tags "maximum" with
  | some d =>
    match atoi d with
    | some n => .ok (s.setMaximum n)
    | none => .error (.atoiErr d)
  | none => .ok s

/-- Lines 83-93: the example tag; stored verbatim when the resolved node
type is "string", otherwise decoded from JSON, a decode failure aborting
the build. -/
def applyExampleTag (tags : Tags) (s : Schema) : Except GenError Schema :=
  match tagLookup tags "example" with
  | some e =>
    if s.type = "string" then .ok (s.setExampleVal (.str e))
    else
      match jsonUnmarshal e with
      | some v => .ok (s.setExampleVal v)
      | none => .error (.jsonErr e)
  | none => .ok s

/-- Lines 55-93: the whole per-field annotation pipeline, in source order:
description, enum, minimum, maximum, example. -/
def applyTags (tags : Tags) (s : Schema) : Except GenError Schema :=
  match applyMin tags (applyEnum tags (applyDesc tags s)) with
  | .error e => .error e
  | .ok s2 =>
    match applyMax tags s2 with
    | .error e => .error e
    | .ok s3 => applyExampleTag tags s3

mutual

/-- `GenerateSchema` (lines 29-147): dispatch on the type kind. The struct
case delegates the field loop to `genFields` and then applies the
`len(properties) > 0` / `len(required) > 0` guards. -/
def generateSchema : Typ → Except GenError Schema
  | .structT fields =>
    match genFields fields [] [] with
    | .error e => .error e
    | .ok (props, req) =>
      .ok (.mk "object" "" none
        (if props.length > 0 then props else [])
        (if req.length > 0 then req else [])
        "" none none none none none)
  | .mapT _ _ => .ok emptySchema
  | .sliceT elem =>
    match generateSchema elem with
    | .error e => .error e
    | .ok s => .ok (.mk "array" "" (some s) [] [] "" none none none none none)
  | .arrayT _ elem =>
    match generateSchema elem with
    | .error e => .error e
    | .ok s => .ok (.mk "array" "" (some s) [] [] "" none none none none none)
  | .intT => .ok (leaf "integer")
  | .int8T => .ok (leaf "integer")
  | .int16T => .ok (leaf "integer")
  | .int32T => .ok (leaf "integer")
  | .int64T => .ok (leaf "integer")
  | .uintT => .ok uintLeaf
  | .uint8T => .ok uintLeaf
  | .uint16T => .ok uintLeaf
  | .uint32T => .ok uintLeaf
  | .uint64T => .ok uintLeaf
  | .float32T => .ok (leaf "number")
  | .float64T => .ok (leaf "number")
  | .boolT => .ok (leaf "boolean")
  | .stringT => .ok (leaf "string")
  | .ptrT elem => generateSchema elem
  | .funcT tn => .error (.unsupported "func" tn)
  | .chanT tn => .error (.unsupported "chan" tn)
  | .interfaceT tn => .error (.unsupported "interface" tn)

/-- The field loop (lines 39-104), threading the `properties` map and the
`required` slice; the first error aborts the whole build. -/
def genFields : Fields → List (String × Schema) → List String →
    Except GenError (List (String × Schema) × List String)
  | .nil, props, req => .ok (props, req)
  | .cons fname tags ty rest, props, req =>
    match generateSchema ty with
    | .error e => .error e
    | .ok s =>
      match applyTags tags s with
      | .error e => .error e
      | .ok s2 =>
        let name := fieldName fname tags
        genFields rest (mapSet props name s2)
          (if fieldOptional tags then req else req ++ [name])

end

/-- The names the field loop appends to `required`: the resolved name of
every field whose tag lacks the omitempty option, in declaration order. -/
def requiredNames : Fields → List String
  | .nil => []
  | .cons fname tags _ rest =>
    if fieldOptional tags then requiredNames rest
    else fieldName fname tags :: requiredNames rest

/-- An object node as the struct case assembles it (before the emptiness
guards): type "object", the given properties and required list. -/
def objectOf (props : List (String × Schema)) (req : List String) : Schema :=
  .mk "object" "" none props req "" none none none none none

/-- Wrap every field type of a struct in one pointer level. -/
def ptrize : Fields → Fields
  | .nil => .nil
  | .cons fname tags ty rest => .cons fname tags (.ptrT ty) (ptrize rest)

/-- Concatenation of field lists, used to place a field of interest at an
arbitrary position inside a struct. -/
def appendFields : Fields → Fields → Fields
  | .nil, post => post
  | .cons fname tags ty rest, post => .cons fname tags ty (appendFields rest post)

theorem setDescription_type (s : Schema) (d : String) :
    (s.setDescription d).type = s.type := by
  cases s; rfl

theorem setEnum_type (s : Schema) (en : List Jsonv) :
    (s.setEnum en).type = s.type := by
  cases s; rfl

theorem setMinimum_type (s : Schema) (n : Int) :
    (s.setMinimum n).type = s.type := by
  cases s; rfl

theorem setMaximum_type (s : Schema) (n : Int) :
    (s.setMaximum n).type = s.type := by
  cases s; rfl

theorem exampleVal_setExampleVal (s : Schema) (v : Jsonv) :
    (s.setExampleVal v).exampleVal = some v := by
  cases s; rfl

theorem mapSet_length_pos (m : List (String × Schema)) (k : String)
    (v : Schema) : 0 < (mapSet m k v).length := by
  cases m with
  | nil => simp [mapSet]
  | cons hd tl =>
    obtain ⟨k', v'⟩ := hd
    by_cases h : k' = k <;> simp [mapSet, h]

theorem applyDesc_type (tags : Tags) (s : Schema) :
    (applyDesc tags s).type = s.type := by
  unfold applyDesc
  cases tagLookup tags "description" <;> simp [setDescription_type]

theorem applyEnum_type (tags : Tags) (s : Schema) :
    (applyEnum tags s).type = s.type := by
  unfold applyEnum
  cases tagLookup tags "enum" <;> simp [setEnum_type]

theorem applyMin_none (tags : Tags) (s : Schema)
    (h : tagLookup tags "minimum" = none) : applyMin tags s = .ok s := by
  simp [applyMin, h]

theorem applyMax_none (tags : Tags) (s : Schema)
    (h : tagLookup tags "maximum" = none) : applyMax tags s = .ok s := by
  simp [applyMax, h]

theorem lookupProp_mapSet (m : List (String × Schema)) (k : String)
    (v : Schema) (n : String) :
    lookupProp (mapSet m k v) n = if k = n then some v else lookupProp m n := by
  induction m with
  | nil => simp [mapSet, lookupProp]
  | cons hd tl ih =>
    obtain ⟨k', v'⟩ := hd
    by_cases hk : k' = k
    · subst hk
      by_cases hn : k' = n <;> simp [mapSet, lookupProp, hn]
    · by_cases hn : k' = n
      · subst hn
        have : ¬ k = k' := fun h => hk h.symm
        simp [mapSet, lookupProp, hk, this]
      · simp [mapSet, lookupProp, hk, hn, ih]

/-- C1: the spec-intended behaviour (an unannotated field keeps its declared
identifier as the properties key) does NOT hold: `strings.Split("", ",")`
returns `[""]`, so `len(jsonTags) > 0` is always true and the `name = f.Name`
fallback on line 44 is dead code. The two-field example of the claim
produces the key "" for the unannotated `Name` field (and "" in required),
and no "Name" key exists. -/
theorem c1_unannotated_field_key :
    generateSchema (.structT (.cons "Name" [] .stringT
        (.cons "Age" [("json", "age,omitempty")] .intT .nil))) =
      .ok (objectOf [("", leaf "string"), ("age", leaf "integer")] [""]) ∧
    lookupProp [("", leaf "string"), ("age", leaf "integer")] "Name" = none ∧
    fieldName "Name" [] = "" :=
  ⟨rfl, rfl, rfl⟩

/-- C3 counterexample: two builds that differ only in the declared field
name ("alpha" vs "beta"), both carrying the unparsable minimum text "abc",
return the identical error value, so the error cannot name the field; the
build returns that error and no node. -/
theorem c3_counterexample :
    generateSchema (.structT (.cons "alpha" [("minimum", "abc")] .intT .nil)) =
      generateSchema (.structT (.cons "beta" [("minimum", "abc")] .intT .nil)) ∧
    generateSchema (.structT (.cons "alpha" [("minimum", "abc")] .intT .nil)) =
      .error (.atoiErr "abc") :=
  ⟨rfl, rfl⟩

/-- C3 (amended): a minimum or a maximum annotation whose text does not
parse as an integer aborts the whole build with the integer-parse error
carrying the offending text (but no field name); no schema node is
returned. For the maximum case the minimum annotation, processed first,
must itself be absent or parse. -/
theorem c3_malformed_constraint_aborts (fname : String) (tags : Tags)
    (ty : Typ) (rest : Fields) (s : Schema) (txt : String)
    (hty : generateSchema ty = .ok s)
    (hatoi : atoi txt = none) :
    (tagLookup tags "minimum" = some txt →
      generateSchema (.structT (.cons fname tags ty rest)) =
        .error (.atoiErr txt)) ∧
    ((tagLookup tags "minimum" = none ∨
        ∃ t n, tagLookup tags "minimum" = some t ∧ atoi t = some n) →
      tagLookup tags "maximum" = some txt →
      generateSchema (.structT (.cons fname tags ty rest)) =
        .error (.atoiErr txt)) := by
  constructor
  · intro hmin
    simp [generateSchema, genFields, hty, applyTags, applyMin, hmin, hatoi]
  · intro hmin hmax
    obtain ⟨s2, hs2⟩ :
        ∃ s2, applyMin tags (applyEnum tags (applyDesc tags s)) = .ok s2 := by
      rcases hmin with h | ⟨t, n, ht, hn⟩
      · exact ⟨_, applyMin_none _ _ h⟩
      · exact ⟨(applyEnum tags (applyDesc tags s)).setMinimum n,
          by simp [applyMin, ht, hn]⟩
    have hmx : applyMax tags s2 = .error (.atoiErr txt) := by
      simp [applyMax, hmax, hatoi]
    have hat : applyTags tags s = .error (.atoiErr txt) := by
      simp [applyTags, hs2, hmx]
    simp [generateSchema, genFields, hty, hat]

/-- C3 witness: concrete instances of `c3_malformed_constraint_aborts`,
one for an unparsable minimum and one for an unparsable maximum. -/
theorem c3_witness :
    generateSchema (.structT (.cons "N" [("minimum", "abc")] .intT .nil)) =
      .error (.atoiErr "abc") ∧
    generateSchema (.structT (.cons "M" [("maximum", "abc")] .intT .nil)) =
      .error (.atoiErr "abc") := by
  refine ⟨(c3_malformed_constraint_aborts "N" [("minimum", "abc")] .intT .nil
      (leaf "integer") "abc" rfl rfl).1 rfl,
    (c3_malformed_constraint_aborts "M" [("maximum", "abc")] .intT .nil
      (leaf "integer") "abc" rfl rfl).2 (Or.inl rfl) rfl⟩

theorem genFields_append (pre : Fields) :
    ∀ post props req, genFields (appendFields pre post) props req =
      match genFields pre props req with
      | .error e => .error e
      | .ok (p, r) => genFields post p r :=
  match pre with
  | .nil => by intro post props req; rfl
  | .cons fname tags ty rest => by
    intro post props req
    simp only [appendFields, genFields]
    cases generateSchema ty with
    | error e => rfl
    | ok s =>
      dsimp only
      cases applyTags tags s with
      | error e => rfl
      | ok s2 =>
        dsimp only
        exact genFields_append rest post _ _

/-- C4: an unsupported kind (func, chan, interface) fails with the
`unsupported type` error naming the kind and the type; the first error
propagates unchanged through slice, array, pointer and struct-field
positions — including a failing field at any position after successful
ones — aborting the whole build; and every call returns either a node or
an error (the `Except` result carries exactly one of the two). -/
theorem c4_unsupported_type_aborts :
    (∀ tn, generateSchema (.funcT tn) = .error (.unsupported "func" tn)) ∧
    (∀ tn, generateSchema (.chanT tn) = .error (.unsupported "chan" tn)) ∧
    (∀ tn, generateSchema (.interfaceT tn) =
      .error (.unsupported "interface" tn)) ∧
    (∀ t e, generateSchema t = .error e →
      generateSchema (.sliceT t) = .error e) ∧
    (∀ len t e, generateSchema t = .error e →
      generateSchema (.arrayT len t) = .error e) ∧
    (∀ t e, generateSchema t = .error e →
      generateSchema (.ptrT t) = .error e) ∧
    (∀ fname tags t rest e, generateSchema t = .error e →
      generateSchema (.structT (.cons fname tags t rest)) = .error e) ∧
    (∀ pre fname tags t rest e p r,
      genFields pre [] [] = .ok (p, r) →
      generateSchema t = .error e →
      generateSchema (.structT (appendFields pre (.cons fname tags t rest))) =
        .error e) ∧
    (∀ t, (∃ s, generateSchema t = .ok s) ∨
      (∃ e, generateSchema t = .error e)) := by
  refine ⟨fun _ => rfl, fun _ => rfl, fun _ => rfl, ?_, ?_, ?_, ?_, ?_, ?_⟩
  · intro t e h; simp [generateSchema, h]
  · intro len t e h; simp [generateSchema, h]
  · intro t e h; simp [generateSchema, h]
  · intro fname tags t rest e h; simp [generateSchema, genFields, h]
  · intro pre fname tags t rest e p r hpre ht
    rw [generateSchema,
      genFields_append pre (.cons fname tags t rest) [] [], hpre]
    dsimp only
    rw [genFields, ht]
  · intro t
    cases h : generateSchema t with
    | ok s => exact Or.inl ⟨s, rfl⟩
    | error e => exact Or.inr ⟨e, rfl⟩

/-- C4 witness: a func-typed field after a successful int field aborts the
build with the error naming the kind "func" and the type string. -/
theorem c4_witness :
    generateSchema (.structT (.cons "A" [] .intT
        (.cons "F" [] (.funcT "func(int) string") .nil))) =
      .error (.unsupported "func" "func(int) string") :=
  c4_unsupported_type_aborts.2.2.2.2.2.2.2.1 (.cons "A" [] .intT .nil)
    "F" [] (.funcT "func(int) string") .nil
    (.unsupported "func" "func(int) string") [("", leaf "integer")] [""]
    rfl rfl

/-- C8: a map type of any key and element type yields the zero-value
schema node: no type set and every other attribute at its zero value. -/
theorem c8_map_empty_node (k v : Typ) :
    generateSchema (.mapT k v) = .ok emptySchema ∧
    emptySchema.type = "" ∧ emptySchema.description = "" ∧
    emptySchema.items = none ∧ emptySchema.properties = [] ∧
    emptySchema.required = [] ∧ emptySchema.format = "" ∧
    emptySchema.enum = none ∧ emptySchema.defaultVal = none ∧
    emptySchema.exampleVal = none ∧ emptySchema.minimum = none ∧
    emptySchema.maximum = none :=
  ⟨rfl, rfl, rfl, rfl, rfl, rfl, rfl, rfl, rfl, rfl, rfl, rfl⟩

/-- C9: the generator is a pure function of the type descriptor, so equal
inputs give structurally identical results (node trees or errors). -/
theorem c9_deterministic (t1 t2 : Typ) (h : t1 = t2) :
    generateSchema t1 = generateSchema t2 := by
  rw [h]

/-- C9 witness: concrete instance of `c9_deterministic`. -/
theorem c9_witness :
    generateSchema (.sliceT .intT) = generateSchema (.sliceT .intT) :=
  c9_deterministic (.sliceT .intT) (.sliceT .intT) rfl

/-- C10: a field whose json tag name part is "-" is not skipped: it lands
in properties under the literal key "-", and "-" joins required exactly
when the tag has no omitempty option. -/
theorem c10_dash_not_skipped (fname : String) (tags : Tags) (ty : Typ)
    (s s2 : Schema)
    (hname : fieldName fname tags = "-")
    (hty : generateSchema ty = .ok s)
    (htags : applyTags tags s = .ok s2) :
    generateSchema (.structT (.cons fname tags ty .nil)) =
      .ok (objectOf [("-", s2)] (if fieldOptional tags then [] else ["-"])) := by
  simp only [generateSchema, genFields, hty, htags, hname, mapSet]
  cases fieldOptional tags <;> simp [objectOf]

/-- C10 witness: a string field tagged `json:"-"` appears under the key
"-" and in required. -/
theorem c10_witness :
    generateSchema (.structT (.cons "Secret" [("json", "-")] .stringT .nil)) =
      .ok (objectOf [("-", leaf "string")] ["-"]) :=
  c10_dash_not_skipped "Secret" [("json", "-")] .stringT
    (leaf "string") (leaf "string") rfl rfl rfl

/-- C2: every unsigned-integer kind yields an integer leaf with minimum 0,
and an explicit minimum (or maximum) annotation is applied after that
kind-derived default, so the parsed annotation value wins (for minimum it
replaces the default 0; for maximum it is added while the default
minimum 0 stays). -/
theorem c2_uint_minimum_default_and_override (minTxt : String) (n : Int)
    (h : atoi minTxt = some n) :
    (generateSchema .uintT = .ok uintLeaf ∧
     generateSchema .uint8T = .ok uintLeaf ∧
     generateSchema .uint16T = .ok uintLeaf ∧
     generateSchema .uint32T = .ok uintLeaf ∧
     generateSchema .uint64T = .ok uintLeaf ∧
     uintLeaf.type = "integer" ∧ uintLeaf.minimum = some 0) ∧
    generateSchema (.structT (.cons "Count"
        [("json", "count"), ("minimum", minTxt)] .uintT .nil)) =
      .ok (objectOf
        [("count", .mk "integer" "" none [] [] "" none none none (some n) none)]
        ["count"]) ∧
    generateSchema (.structT (.cons "Count"
        [("json", "count"), ("maximum", minTxt)] .uintT .nil)) =
      .ok (objectOf
        [("count", .mk "integer" "" none [] [] "" none none none (some 0) (some n))]
        ["count"]) := by
  refine ⟨⟨rfl, rfl, rfl, rfl, rfl, rfl, rfl⟩, ?_, ?_⟩
  · simp [generateSchema, genFields, applyTags, applyMin, applyMax,
      applyExampleTag, applyEnum, applyDesc, tagLookup, tagGet, fieldName,
      fieldOptional, splitComma, splitCommaChars, h, uintLeaf,
      Schema.setMinimum, mapSet, objectOf]
  · simp [generateSchema, genFields, applyTags, applyMin, applyMax,
      applyExampleTag, applyEnum, applyDesc, tagLookup, tagGet, fieldName,
      fieldOptional, splitComma, splitCommaChars, h, uintLeaf,
      Schema.setMaximum, mapSet, objectOf]

/-- C2 witness: minimum tag "17" on a uint field overrides the default 0,
and maximum tag "17" keeps the default minimum 0. -/
theorem c2_witness :
    generateSchema (.structT (.cons "Count"
        [("json", "count"), ("minimum", "17")] .uintT .nil)) =
      .ok (objectOf
        [("count", .mk "integer" "" none [] [] "" none none none (some 17) none)]
        ["count"]) ∧
    generateSchema (.structT (.cons "Count"
        [("json", "count"), ("maximum", "17")] .uintT .nil)) =
      .ok (objectOf
        [("count", .mk "integer" "" none [] [] "" none none none (some 0) (some 17))]
        ["count"]) := by
  have h := c2_uint_minimum_default_and_override "17" 17 (by decide)
  exact ⟨h.2.1, h.2.2⟩

/-- C5 counterexample: two builds that differ only in the declared field
name ("alpha" vs "beta"), each with a non-string (integer) field whose
example text "abc" is not valid JSON, return the identical error value, so
the error cannot name the field. -/
theorem c5_counterexample :
    generateSchema (.structT (.cons "alpha" [("example", "abc")] .intT .nil)) =
      generateSchema (.structT (.cons "beta" [("example", "abc")] .intT .nil)) ∧
    generateSchema (.structT (.cons "alpha" [("example", "abc")] .intT .nil)) =
      .error (.jsonErr "abc") :=
  ⟨rfl, rfl⟩

/-- C5 (amended): for a field at any position of a struct (arbitrary
successfully processed fields before it) whose minimum/maximum tags are
absent or parse, an example annotation is stored verbatim when the
resolved node type is "string", otherwise its JSON-decoded value is
stored, and a decode failure for a non-string field aborts the whole
build — with any remaining fields — with the JSON-parse error carrying the
offending text (but no field name). The success branches place the field
last because a later field resolving to the same name would overwrite its
map entry. -/
theorem c5_example_tag_semantics (fname : String) (tags : Tags) (ty : Typ)
    (s : Schema) (ex : String) (pre : Fields)
    (p : List (String × Schema)) (r : List String)
    (hpre : genFields pre [] [] = .ok (p, r))
    (hty : generateSchema ty = .ok s)
    (hmin : tagLookup tags "minimum" = none ∨
      ∃ t n, tagLookup tags "minimum" = some t ∧ atoi t = some n)
    (hmax : tagLookup tags "maximum" = none ∨
      ∃ t n, tagLookup tags "maximum" = some t ∧ atoi t = some n)
    (hex : tagLookup tags "example" = some ex) :
    (s.type = "string" →
      ∃ out sOut,
        generateSchema (.structT (appendFields pre
          (.cons fname tags ty .nil))) = .ok out ∧
        lookupProp out.properties (fieldName fname tags) = some sOut ∧
        sOut.exampleVal = some (.str ex)) ∧
    (∀ v, s.type ≠ "string" → jsonUnmarshal ex = some v →
      ∃ out sOut,
        generateSchema (.structT (appendFields pre
          (.cons fname tags ty .nil))) = .ok out ∧
        lookupProp out.properties (fieldName fname tags) = some sOut ∧
        sOut.exampleVal = some v) ∧
    (∀ rest, s.type ≠ "string" → jsonUnmarshal ex = none →
      generateSchema (.structT (appendFields pre
        (.cons fname tags ty rest))) = .error (.jsonErr ex)) := by
  obtain ⟨s2, hs2, hty2⟩ :
      ∃ s2, applyMin tags (applyEnum tags (applyDesc tags s)) = .ok s2 ∧
        s2.type = s.type := by
    rcases hmin with h | ⟨t, n, ht, hn⟩
    · refine ⟨_, applyMin_none _ _ h, ?_⟩
      rw [applyEnum_type, applyDesc_type]
    · refine ⟨(applyEnum tags (applyDesc tags s)).setMinimum n,
        by simp [applyMin, ht, hn], ?_⟩
      rw [setMinimum_type, applyEnum_type, applyDesc_type]
  obtain ⟨s4, hs4, hty4⟩ :
      ∃ s4, applyMax tags s2 = .ok s4 ∧ s4.type = s.type := by
    rcases hmax with h | ⟨t, n, ht, hn⟩
    · exact ⟨s2, applyMax_none _ _ h, hty2⟩
    · refine ⟨s2.setMaximum n, by simp [applyMax, ht, hn], ?_⟩
      rw [setMaximum_type, hty2]
  have hpipe : applyTags tags s = applyExampleTag tags s4 := by
    simp [applyTags, hs2, hs4]
  have key : ∀ w, applyExampleTag tags s4 = .ok (s4.setExampleVal w) →
      ∃ out sOut,
        generateSchema (.structT (appendFields pre
          (.cons fname tags ty .nil))) = .ok out ∧
        lookupProp out.properties (fieldName fname tags) = some sOut ∧
        sOut.exampleVal = some w := by
    intro w hx
    have hgen : generateSchema (.structT (appendFields pre
        (.cons fname tags ty .nil))) =
        .ok (.mk "object" "" none
          (if (mapSet p (fieldName fname tags) (s4.setExampleVal w)).length > 0
            then mapSet p (fieldName fname tags) (s4.setExampleVal w) else [])
          (if (if fieldOptional tags then r
              else r ++ [fieldName fname tags]).length > 0
            then (if fieldOptional tags then r
              else r ++ [fieldName fname tags]) else [])
          "" none none none none none) := by
      rw [generateSchema,
        genFields_append pre (.cons fname tags ty .nil) [] [], hpre]
      dsimp only
      rw [genFields, hty]
      dsimp only
      rw [hpipe, hx]
      dsimp only
      rw [genFields]
    refine ⟨_, s4.setExampleVal w, hgen, ?_, exampleVal_setExampleVal _ _⟩
    simp only [Schema.properties]
    rw [if_pos (mapSet_length_pos p (fieldName fname tags)
      (s4.setExampleVal w))]
    rw [lookupProp_mapSet]
    simp
  refine ⟨?_, ?_, ?_⟩
  · intro hstr
    exact key (.str ex) (by simp [applyExampleTag, hex, hty4, hstr])
  · intro v hnstr hjson
    exact key v (by simp [applyExampleTag, hex, hty4, hnstr, hjson])
  · intro rest hnstr hjson
    have hx : applyExampleTag tags s4 = .error (.jsonErr ex) := by
      simp [applyExampleTag, hex, hty4, hnstr, hjson]
    rw [generateSchema,
      genFields_append pre (.cons fname tags ty rest) [] [], hpre]
    dsimp only
    rw [genFields, hty]
    dsimp only
    rw [hpipe, hx]

/-- C5 witness: in a two-field struct, an invalid JSON example on the
second (integer) field aborts the whole build via
`c5_example_tag_semantics`; alongside, a string field stores its example
text verbatim. -/
theorem c5_witness :
    generateSchema (.structT (.cons "Id" [("json", "id")] .intT
        (.cons "Bad" [("example", "abc")] .intT .nil))) =
      .error (.jsonErr "abc") ∧
    generateSchema (.structT (.cons "Id" [("json", "id")] .intT
        (.cons "Name" [("example", "hi")] .stringT .nil))) =
      .ok (objectOf
        [("id", leaf "integer"), ("", (leaf "string").setExampleVal (.str "hi"))]
        ["id", ""]) := by
  refine ⟨?_, rfl⟩
  exact (c5_example_tag_semantics "Bad" [("example", "abc")] .intT
    (leaf "integer") "abc" (.cons "Id" [("json", "id")] .intT .nil)
    [("id", leaf "integer")] ["id"]
    rfl rfl (Or.inl rfl) (Or.inl rfl) rfl).2.2 .nil
    (by simp [leaf, Schema.type]) rfl

theorem genFields_ok (fields : Fields) :
    ∀ (props : List (String × Schema)) (req : List String)
      (p : List (String × Schema)) (r : List String),
      genFields fields props req = .ok (p, r) →
      r = req ++ requiredNames fields ∧
      (∀ n, (lookupProp props n).isSome = true →
        (lookupProp p n).isSome = true) ∧
      (∀ n, n ∈ requiredNames fields → (lookupProp p n).isSome = true) :=
  match fields with
  | .nil => by
    intro props req p r h
    simp [genFields] at h
    obtain ⟨hp, hr⟩ := h
    subst hp; subst hr
    simp [requiredNames]
  | .cons fname tags ty rest => by
    intro props req p r h
    rw [genFields] at h
    cases hg : generateSchema ty with
    | error e => rw [hg] at h; exact absurd h (by simp)
    | ok s =>
      rw [hg] at h
      dsimp only at h
      cases ha : applyTags tags s with
      | error e => rw [ha] at h; exact absurd h (by simp)
      | ok s2 =>
        rw [ha] at h
        dsimp only at h
        have ih := genFields_ok rest
          (mapSet props (fieldName fname tags) s2)
          (if fieldOptional tags then req else req ++ [fieldName fname tags])
          p r h
        obtain ⟨ih1, ih2, ih3⟩ := ih
        have hpres : ∀ n, (lookupProp props n).isSome = true →
            (lookupProp p n).isSome = true := by
          intro n hn
          apply ih2
          rw [lookupProp_mapSet]
          by_cases hk : fieldName fname tags = n <;> simp [hk, hn]
        have hself : (lookupProp p (fieldName fname tags)).isSome = true := by
          apply ih2
          rw [lookupProp_mapSet]
          simp
        cases hopt : fieldOptional tags with
        | true =>
          rw [hopt] at ih1
          simp only [requiredNames, hopt, if_pos rfl]
          exact ⟨by simpa using ih1, hpres, ih3⟩
        | false =>
          rw [hopt] at ih1
          rw [if_neg (fun hc => Bool.false_ne_true hc)] at ih1
          simp only [requiredNames, hopt]
          rw [if_neg (fun hc => Bool.false_ne_true hc)]
          refine ⟨?_, hpres, ?_⟩
          · rw [ih1, List.append_assoc]
            simp
          · intro n hn
            rcases List.mem_cons.mp hn with hn | hn
            · subst hn; exact hself
            · exact ih3 n hn

/-- C6 counterexample: two fields resolving to the same serialization name
"x", neither omittable, give required = ["x", "x"] — not a set of unique
names as the claim states (properties meanwhile holds a single "x" key). -/
theorem c6_counterexample :
    generateSchema (.structT (.cons "A" [("json", "x")] .intT
        (.cons "B" [("json", "x")] .intT .nil))) =
      .ok (objectOf [("x", leaf "integer")] ["x", "x"]) ∧
    ¬ (["x", "x"] : List String).Nodup :=
  ⟨rfl, by decide⟩

/-- C6 (amended): on every successful struct build, required is exactly the
resolved names of the non-omittable fields in declaration order (with
duplicates when names collide), and every name in required is a key of
properties. -/
theorem c6_required_matches_fields (fields : Fields) (out : Schema)
    (h : generateSchema (.structT fields) = .ok out) :
    out.required = requiredNames fields ∧
    ∀ n, n ∈ out.required → (lookupProp out.properties n).isSome = true := by
  rw [generateSchema] at h
  cases hg : genFields fields [] [] with
  | error e => rw [hg] at h; exact absurd h (by simp)
  | ok pr =>
    obtain ⟨p, r⟩ := pr
    rw [hg] at h
    dsimp only at h
    simp only [Except.ok.injEq] at h
    subst h
    obtain ⟨h1, h2, h3⟩ := genFields_ok fields [] [] p r hg
    simp only [List.nil_append] at h1
    subst h1
    constructor
    · simp only [Schema.required]
      cases requiredNames fields with
      | nil => simp
      | cons a l => simp
    · intro n hn
      simp only [Schema.required] at hn
      simp only [Schema.properties]
      have hmem : n ∈ requiredNames fields := by
        cases hrn : requiredNames fields with
        | nil => rw [hrn] at hn; simp at hn
        | cons a l => rw [hrn] at hn; simpa using hn
      have hl := h3 n hmem
      cases hp : p with
      | nil => rw [hp] at hl; simp [lookupProp] at hl
      | cons q qs =>
        rw [hp] at hl
        simpa using hl

/-- C6 witness: concrete instance of `c6_required_matches_fields` on a
struct with one mandatory and one omittable field. -/
theorem c6_witness :
    requiredNames (.cons "A" [("json", "a")] .intT
      (.cons "B" [("json", "b,omitempty")] .intT .nil)) = ["a"] ∧
    (objectOf [("a", leaf "integer"), ("b", leaf "integer")] ["a"]).required =
      requiredNames (.cons "A" [("json", "a")] .intT
        (.cons "B" [("json", "b,omitempty")] .intT .nil)) ∧
    (lookupProp (objectOf [("a", leaf "integer"), ("b", leaf "integer")]
      ["a"]).properties "a").isSome = true := by
  have h := c6_required_matches_fields
    (.cons "A" [("json", "a")] .intT
      (.cons "B" [("json", "b,omitempty")] .intT .nil))
    (objectOf [("a", leaf "integer"), ("b", leaf "integer")] ["a"]) rfl
  exact ⟨rfl, h.1, h.2 "a" (by decide)⟩

theorem genFields_ptrize (fields : Fields) :
    ∀ props req, genFields (ptrize fields) props req =
      genFields fields props req :=
  match fields with
  | .nil => by intro props req; rfl
  | .cons fname tags ty rest => by
    intro props req
    have hp : generateSchema (Typ.ptrT ty) = generateSchema ty := rfl
    simp only [ptrize, genFields, hp]
    cases generateSchema ty with
    | error e => rfl
    | ok s =>
      dsimp only
      cases applyTags tags s with
      | error e => rfl
      | ok s2 =>
        dsimp only
        exact genFields_ptrize rest _ _

theorem requiredNames_ptrize (fields : Fields) :
    requiredNames (ptrize fields) = requiredNames fields :=
  match fields with
  | .nil => rfl
  | .cons fname tags ty rest => by
    simp only [ptrize, requiredNames, requiredNames_ptrize rest]

/-- C7: a pointer type is unwrapped and the referenced type's schema is
returned unchanged; wrapping every field of a struct in a pointer changes
nothing in the generated object node, and the required computation never
looks at field types (so optionality comes only from the omitempty tag). -/
theorem c7_pointer_transparent :
    (∀ t, generateSchema (.ptrT t) = generateSchema t) ∧
    (∀ fields, generateSchema (.structT (ptrize fields)) =
      generateSchema (.structT fields)) ∧
    (∀ fields, requiredNames (ptrize fields) = requiredNames fields) := by
  refine ⟨fun _ => rfl, ?_, fun fields => requiredNames_ptrize fields⟩
  intro fields
  simp only [generateSchema, genFields_ptrize fields]
